import Mathlib

/-!
Verification development for the stroke-speech-helper core
(`src/core/llm_utils.py` and `src/core/views.py`), as a shallow embedding:
pure data flow is translated into Lean functions, the external services
(language model, speech-to-text) become explicit outcome parameters, and
Python exceptions become an explicit error constructor.
-/

/-- Embeds the pydantic model `TokenList` of `llm_utils.py`.
The pydantic schema validates only the shape `tokens : List[str]`;
the `Field` description ("15 distinct lowercase strings") is prompt text,
not a validator, so any list of strings conforms. -/
structure TokenList where
  tokens : List String
deriving DecidableEq

/-- Outcome of one `chain.invoke` call: either a schema-conforming parsed
reply, or any exception (network failure, timeout, unrecoverable malformed
output after the single repair attempt). -/
inductive LLMOutcome (α : Type) where
  | ok (result : α)
  | err
deriving DecidableEq

/-- Embeds `predict_next_token_chain` of `llm_utils.py` (lines 49-82):
`try: result = chain.invoke(...); return result.tokens except: return []`.
The external call is the `outcome` parameter. -/
def predict_next_token_chain (sentence : String) (outcome : LLMOutcome TokenList) :
    List String :=
  match sentence, outcome with
  | _, .ok result => result.tokens
  | _, .err => []

/-- Embeds `predict_word_completion_chain` of `llm_utils.py` (lines 84-117):
same shape, but the except-branch returns `[partial]` (here `frag`, since
the Python parameter name is a Lean keyword). -/
def predict_word_completion_chain (sentence frag : String)
    (outcome : LLMOutcome TokenList) : List String :=
  match sentence, outcome with
  | _, .ok result => result.tokens
  | _, .err => [frag]

/-- A string is lowercase in the sense of the spec when lowercasing each of
its characters leaves it unchanged. -/
def allLowercase (l : List String) : Bool :=
  l.all fun t => t.data.all fun c => c.toLower = c

/-- Modelled from the spec: the repair loop of the structured-output fixing
wrapper built by `get_parser` (`llm_utils.py` lines 44-47) is third-party
library code not under `src/`. Per the spec, a raw reply is parsed; if
parsing fails, exactly one corrective round-trip (`fixCall`) is made and the
fixed reply is parsed, after which the result is accepted or rejected with
no further attempt. The second component counts repair round-trips made. -/
def fixingParse (parse : String → Option TokenList) (fixCall : String → String)
    (raw : String) : Option TokenList × Nat :=
  match parse raw with
  | some r => (some r, 0)
  | none =>
    match parse (fixCall raw) with
    | some r => (some r, 1)
    | none => (none, 1)

/-- Python `str.strip()`: drop leading and trailing whitespace. -/
def pyStrip (s : String) : String :=
  ⟨((s.data.dropWhile Char.isWhitespace).reverse.dropWhile Char.isWhitespace).reverse⟩

/-- Python `str.lower()`: lowercase each character. -/
def pyLower (s : String) : String :=
  ⟨s.data.map Char.toLower⟩

/-- Python `str.replace(c, "")` for a one-character pattern: remove every
occurrence of the character. -/
def removeChar (c : Char) (s : String) : String :=
  ⟨s.data.filter fun x => x ≠ c⟩

/-- Whether `pat` is an initial run of `s` (character lists). -/
def listStartsWith : List Char → List Char → Bool
  | [], _ => true
  | _ :: _, [] => false
  | p :: ps, c :: cs => p == c && listStartsWith ps cs

/-- Whether `pat` occurs contiguously somewhere in `s` (character lists). -/
def listHasSegment (pat : List Char) : List Char → Bool
  | [] => listStartsWith pat []
  | c :: tail => listStartsWith pat (c :: tail) || listHasSegment pat tail

/-- Python's substring test `pat in s`. -/
def strHasSegment (s pat : String) : Bool := listHasSegment pat.data s.data

/-- One segment of the verbose speech-to-text response. Python reads
`s.avg_logprob` (attribute access) and on `AttributeError` retries
`s['avg_logprob']` (dictionary access); `none` models the access failing. -/
structure Segment where
  attrLogprob : Option ℝ
  dictLogprob : Option ℝ

/-- The comprehension `[... for s in segments]` over one access path: it
yields the list of all log-probabilities, or fails as soon as any
element's access fails. -/
def collectLogprobs (access : Segment → Option ℝ) : List Segment → Option (List ℝ)
  | [] => some []
  | s :: rest =>
    match access s, collectLogprobs access rest with
    | some x, some xs => some (x :: xs)
    | _, _ => none

/-- Embeds the confidence computation of `transcribe_audio`
(`views.py` lines 55-67): `confidence = 0.0`; if segments are present,
`probs = [math.exp(s.avg_logprob) for s in segments]` and
`confidence = sum(probs)/len(probs)`, falling back to dictionary access on
`AttributeError`, and to `0.0` when that also fails. -/
noncomputable def computeConfidence (segments : List Segment) : ℝ :=
  if segments.isEmpty then 0
  else
    match collectLogprobs (fun s => s.attrLogprob) segments with
    | some lps => (lps.map Real.exp).sum / lps.length
    | none =>
      match collectLogprobs (fun s => s.dictLogprob) segments with
      | some lps => (lps.map Real.exp).sum / lps.length
      | none => 0

/-- Embeds the `HALLUCINATIONS` set of `views.py` (lines 75-87). -/
def HALLUCINATIONS : List String :=
  ["thank you for watching", "thanks for watching", "subscribe", "amara.org",
   "mbc", "you", ".", "bye", "subtitles by", "copyright", "all rights reserved"]

/-- Embeds the filter condition of `views.py` line 94:
`clean_text = text.strip().lower()`;
`clean_text_check = clean_text.replace(".","").replace("!","").replace("?","")`;
match when `clean_text_check in HALLUCINATIONS` or either watching-phrase is
a substring of `clean_text`. -/
def isHallucination (text : String) : Bool :=
  let clean_text := pyLower (pyStrip text)
  let clean_text_check := removeChar '?' (removeChar '!' (removeChar '.' clean_text))
  decide (clean_text_check ∈ HALLUCINATIONS)
    || strHasSegment clean_text "thank you for watching"
    || strHasSegment clean_text "thanks for watching"

/-- Embeds the post-transcription processing of `transcribe_audio`
(`views.py` lines 55-101): compute confidence from segments, apply the
hallucination filter (matched text is discarded and confidence forced to
`0.0`), then `if confidence == 0.0 and text: confidence = 1.0`. Returns the
final `(text, confidence)` pair of the JSON response. -/
noncomputable def transcribeProcess (text : String) (segments : List Segment) :
    String × ℝ :=
  let confidence := computeConfidence segments
  let p := if isHallucination text then ("", (0 : ℝ)) else (text, confidence)
  if p.2 = 0 ∧ p.1 ≠ "" then (p.1, 1) else p

/-- Outcome of the `client.audio.transcriptions.create` call: a transcript
text with segments, or any raised exception. -/
inductive APIOutcome where
  | ok (text : String) (segments : List Segment)
  | err (message : String)

/-- Writing the temporary audio file (`tempfile.NamedTemporaryFile` with
`delete=False`): after the write the file exists. The `Bool` is whether the
temporary path exists on disk. -/
def writeTempFile (_fs : Bool) : Bool := true

/-- The `finally` block of `transcribe_audio` (`views.py` lines 105-108):
`if os.path.exists(temp_audio_path): os.remove(temp_audio_path)`. -/
def removeIfPresent (fs : Bool) : Bool := if fs then false else fs

/-- Embeds the `transcribe_audio` POST handler (`views.py` lines 35-108):
buffer audio to a temporary file, call the speech-to-text service, process
its result (or convert an exception into an error response), and in a
`finally` block delete the temporary file. The second component is whether
the temporary path still exists after the handler returns. -/
noncomputable def transcribe_audio (fs : Bool) (outcome : APIOutcome) :
    Except String (String × ℝ) × Bool :=
  let fs1 := writeTempFile fs
  match outcome with
  | .ok text segments => (Except.ok (transcribeProcess text segments), removeIfPresent fs1)
  | .err message => (Except.error message, removeIfPresent fs1)

/-- Embeds the `predict_word_completion` POST handler (`views.py` lines
136-145): `partial = data.get('partial', '')` (missing field becomes `""`),
then `if not partial: return JsonResponse({'tokens': []})` before the chain
is invoked. The `Bool` records whether the external model call was made. -/
def predict_word_completion (sentence : String) (frag : Option String)
    (outcome : LLMOutcome TokenList) : List String × Bool :=
  let p := frag.getD ""
  if p = "" then ([], false)
  else (predict_word_completion_chain sentence p outcome, true)

/-- C1: the claim asserts the returned sequence is empty or has at most 15
lowercase entries. The parser enforces neither bound: a parsed reply of 16
tokens is returned as-is. This closed counterexample evaluates
`predict_next_token_chain` on a non-empty context with such a reply. -/
theorem C1_counterexample :
    ¬ (((predict_next_token_chain "I want the"
          (LLMOutcome.ok ⟨List.replicate 16 "apple"⟩)).length ≤ 15 ∧
        allLowercase (predict_next_token_chain "I want the"
          (LLMOutcome.ok ⟨List.replicate 16 "apple"⟩)) = true) ∨
       predict_next_token_chain "I want the"
          (LLMOutcome.ok ⟨List.replicate 16 "apple"⟩) = []) := by
  decide

/-- C1 (amended): for every context, `predict_next_token_chain` returns the
parsed token list unchanged on success (no count or lowercase bound is
enforced by the code), and the empty sequence on any failure; no exception
propagates past its boundary. -/
theorem C1_next_token_boundary (sentence : String) (tl : TokenList) :
    predict_next_token_chain sentence (LLMOutcome.ok tl) = tl.tokens ∧
    predict_next_token_chain sentence LLMOutcome.err = [] :=
  ⟨rfl, rfl⟩

/-- C2: on any failure, `predict_word_completion_chain` returns exactly the
single-element sequence `[frag]` (never empty), in contrast to the
next-token path whose failure result is the empty sequence. -/
theorem C2_completion_failure_echoes (sentence frag : String) :
    predict_word_completion_chain sentence frag LLMOutcome.err = [frag] ∧
    predict_word_completion_chain sentence frag LLMOutcome.err ≠ [] ∧
    predict_next_token_chain sentence LLMOutcome.err = [] := by
  refine ⟨rfl, ?_, rfl⟩
  simp [predict_word_completion_chain]

theorem collectLogprobs_ne_nil (access : Segment → Option ℝ)
    (segments : List Segment) (h : collectLogprobs access segments = none) :
    segments ≠ [] := by
  intro he
  subst he
  simp [collectLogprobs] at h

theorem computeConfidence_attr (segments : List Segment) (lps : List ℝ)
    (hne : segments ≠ [])
    (h : collectLogprobs (fun s => s.attrLogprob) segments = some lps) :
    computeConfidence segments = (lps.map Real.exp).sum / lps.length := by
  unfold computeConfidence
  rw [if_neg (by simpa using hne), h]

theorem computeConfidence_failed (segments : List Segment)
    (h1 : collectLogprobs (fun s => s.attrLogprob) segments = none)
    (h2 : collectLogprobs (fun s => s.dictLogprob) segments = none) :
    computeConfidence segments = 0 := by
  unfold computeConfidence
  rw [if_neg (by simpa using collectLogprobs_ne_nil _ _ h1), h1, h2]

/-- C3: if segment log-probabilities are readable, confidence is the
arithmetic mean of `exp(avg_logprob)` over all segments; if both access
paths fail, confidence defaults to 0 instead of the failure propagating;
and two segments with log-probability 0 yield confidence exactly 1. -/
theorem C3_confidence_mean (segs segsF : List Segment) (lps : List ℝ)
    (hne : segs ≠ [])
    (h : collectLogprobs (fun s => s.attrLogprob) segs = some lps)
    (hf1 : collectLogprobs (fun s => s.attrLogprob) segsF = none)
    (hf2 : collectLogprobs (fun s => s.dictLogprob) segsF = none) :
    computeConfidence segs = (lps.map Real.exp).sum / lps.length ∧
    computeConfidence segsF = 0 ∧
    computeConfidence [⟨some 0, some 0⟩, ⟨some 0, some 0⟩] = 1 := by
  refine ⟨computeConfidence_attr segs lps hne h, computeConfidence_failed segsF hf1 hf2, ?_⟩
  rw [computeConfidence_attr [⟨some 0, some 0⟩, ⟨some 0, some 0⟩] [0, 0]
    (by simp) (by simp [collectLogprobs])]
  norm_num [Real.exp_zero]

/-- Witness for C3 at concrete segment lists. -/
theorem C3_confidence_mean_witness :
    computeConfidence [⟨some 0, some 0⟩] =
      (([(0 : ℝ)].map Real.exp).sum / ([(0 : ℝ)].length : ℝ)) ∧
    computeConfidence [⟨none, none⟩] = 0 ∧
    computeConfidence [⟨some 0, some 0⟩, ⟨some 0, some 0⟩] = 1 :=
  C3_confidence_mean [⟨some 0, some 0⟩] [⟨none, none⟩] [0]
    (by simp) (by simp [collectLogprobs]) (by simp [collectLogprobs])
    (by simp [collectLogprobs])

theorem isHallucination_iff (text : String) :
    isHallucination text = true ↔
      (removeChar '?' (removeChar '!' (removeChar '.' (pyLower (pyStrip text)))) ∈
          HALLUCINATIONS ∨
       strHasSegment (pyLower (pyStrip text)) "thank you for watching" = true ∨
       strHasSegment (pyLower (pyStrip text)) "thanks for watching" = true) := by
  simp [isHallucination, Bool.or_eq_true, decide_eq_true_iff, or_assoc]

theorem isHallucination_false_of_not (text : String)
    (h : ¬ isHallucination text = true) : isHallucination text = false := by
  cases hb : isHallucination text
  · rfl
  · exact absurd hb h

theorem transcribeProcess_matched (text : String) (segs : List Segment)
    (h : isHallucination text = true) :
    transcribeProcess text segs = ("", 0) := by
  simp [transcribeProcess, h]

theorem transcribeProcess_unmatched_eq (text : String) (segs : List Segment)
    (h : isHallucination text = false) :
    transcribeProcess text segs =
      if computeConfidence segs = 0 ∧ text ≠ "" then (text, 1)
      else (text, computeConfidence segs) := by
  simp only [transcribeProcess, h, Bool.false_eq_true, if_false]

theorem transcribeProcess_unmatched_text (text : String) (segs : List Segment)
    (h : isHallucination text = false) :
    (transcribeProcess text segs).1 = text := by
  rw [transcribeProcess_unmatched_eq text segs h]
  split <;> rfl

/-- C4: a transcript whose normalization is in the denylist, or whose
trimmed-lowercased form contains either watching-phrase, is returned as
`""` with confidence `0.0`; a transcript matching neither condition keeps
its text unmodified; and the spec's three concrete examples. -/
theorem C4_hallucination_filter (text : String) (segs : List Segment) :
    (if removeChar '?' (removeChar '!' (removeChar '.' (pyLower (pyStrip text)))) ∈
          HALLUCINATIONS ∨
        strHasSegment (pyLower (pyStrip text)) "thank you for watching" = true ∨
        strHasSegment (pyLower (pyStrip text)) "thanks for watching" = true
     then transcribeProcess text segs = ("", 0)
     else (transcribeProcess text segs).1 = text) ∧
    transcribeProcess "Thank you for watching!" segs = ("", 0) ∧
    (transcribeProcess "I want the garden tool" segs).1 = "I want the garden tool" ∧
    transcribeProcess "You." segs = ("", 0) := by
  refine ⟨?_, transcribeProcess_matched _ _ (by decide),
    transcribeProcess_unmatched_text _ _ (by decide),
    transcribeProcess_matched _ _ (by decide)⟩
  by_cases hc : removeChar '?' (removeChar '!' (removeChar '.' (pyLower (pyStrip text)))) ∈
          HALLUCINATIONS ∨
        strHasSegment (pyLower (pyStrip text)) "thank you for watching" = true ∨
        strHasSegment (pyLower (pyStrip text)) "thanks for watching" = true
  · rw [if_pos hc]
    exact transcribeProcess_matched _ _ ((isHallucination_iff text).mpr hc)
  · rw [if_neg hc]
    exact transcribeProcess_unmatched_text _ _
      (isHallucination_false_of_not _ (fun hb => hc ((isHallucination_iff text).mp hb)))

/-- C5: when the post-filter confidence is 0 and the post-filter text is
non-empty, the final confidence is overridden to 1; consequently a final
confidence of 0 occurs only with empty final text. -/
theorem C5_zero_confidence_only_when_text_empty (text : String) (segs : List Segment) :
    ((if isHallucination text then ("", (0 : ℝ)) else (text, computeConfidence segs)).2 ≠ 0 ∨
     (if isHallucination text then ("", (0 : ℝ)) else (text, computeConfidence segs)).1 = "" ∨
     (transcribeProcess text segs).2 = 1) ∧
    ((transcribeProcess text segs).1 = "" ∨ (transcribeProcess text segs).2 ≠ 0) := by
  by_cases hH : isHallucination text = true
  · rw [transcribeProcess_matched _ _ hH]
    simp [hH]
  · have hf := isHallucination_false_of_not _ hH
    rw [transcribeProcess_unmatched_eq _ _ hf]
    simp only [hf, Bool.false_eq_true, if_false]
    by_cases hc0 : computeConfidence segs = 0
    · by_cases ht : text = ""
      · subst ht
        rw [if_neg (by simp)]
        exact ⟨Or.inr (Or.inl rfl), Or.inl rfl⟩
      · rw [if_pos ⟨hc0, ht⟩]
        exact ⟨Or.inr (Or.inr rfl), Or.inr one_ne_zero⟩
    · rw [if_neg (fun hand => hc0 hand.1)]
      exact ⟨Or.inl hc0, Or.inr hc0⟩

theorem sum_map_exp_nonneg (lps : List ℝ) : 0 ≤ (lps.map Real.exp).sum := by
  induction lps with
  | nil => simp
  | cons a t ih =>
    simp only [List.map_cons, List.sum_cons]
    have := Real.exp_nonneg a
    linarith

theorem sum_map_exp_le_length (lps : List ℝ) (h : ∀ x ∈ lps, x ≤ 0) :
    (lps.map Real.exp).sum ≤ (lps.length : ℝ) := by
  induction lps with
  | nil => simp
  | cons a t ih =>
    simp only [List.map_cons, List.sum_cons, List.length_cons]
    have ha : Real.exp a ≤ 1 := Real.exp_le_one_iff.mpr (h a (by simp))
    have ht := ih (fun x hx => h x (by simp [hx]))
    push_cast
    linarith

theorem computeConfidence_dict (segments : List Segment) (lps : List ℝ)
    (h1 : collectLogprobs (fun s => s.attrLogprob) segments = none)
    (h2 : collectLogprobs (fun s => s.dictLogprob) segments = some lps) :
    computeConfidence segments = (lps.map Real.exp).sum / lps.length := by
  unfold computeConfidence
  rw [if_neg (by simpa using collectLogprobs_ne_nil _ _ h1), h1, h2]

theorem computeConfidence_nonneg (segments : List Segment) :
    0 ≤ computeConfidence segments := by
  unfold computeConfidence
  split
  · exact le_refl 0
  · split
    · exact div_nonneg (sum_map_exp_nonneg _) (Nat.cast_nonneg _)
    · split
      · exact div_nonneg (sum_map_exp_nonneg _) (Nat.cast_nonneg _)
      · exact le_refl 0

theorem collectLogprobs_nonpos (access : Segment → Option ℝ)
    (segments : List Segment) (lps : List ℝ)
    (hacc : collectLogprobs access segments = some lps)
    (h : ∀ s ∈ segments, ∀ x, access s = some x → x ≤ 0) :
    ∀ x ∈ lps, x ≤ 0 := by
  induction segments generalizing lps with
  | nil =>
    simp only [collectLogprobs, Option.some_inj] at hacc
    subst hacc
    simp
  | cons s rest ih =>
    simp only [collectLogprobs] at hacc
    cases ha : access s with
    | none => rw [ha] at hacc; simp at hacc
    | some x =>
      rw [ha] at hacc
      cases hr : collectLogprobs access rest with
      | none => rw [hr] at hacc; simp at hacc
      | some xs =>
        rw [hr] at hacc
        simp only [Option.some_inj] at hacc
        subst hacc
        intro y hy
        rcases List.mem_cons.mp hy with hy | hy
        · subst hy
          exact h s (by simp) y ha
        · exact ih xs hr (fun t ht z hz => h t (by simp [ht]) z hz) y hy

theorem computeConfidence_le_one (segments : List Segment)
    (h : ∀ s ∈ segments, (∀ x, s.attrLogprob = some x → x ≤ 0) ∧
                         (∀ x, s.dictLogprob = some x → x ≤ 0)) :
    computeConfidence segments ≤ 1 := by
  by_cases hn : segments = []
  · subst hn
    simp [computeConfidence]
  · cases hattr : collectLogprobs (fun s => s.attrLogprob) segments with
    | some lps =>
      rw [computeConfidence_attr segments lps hn hattr]
      have hnp : ∀ x ∈ lps, x ≤ 0 :=
        collectLogprobs_nonpos _ segments lps hattr (fun s hs x hx => (h s hs).1 x hx)
      exact div_le_one_of_le₀ (sum_map_exp_le_length lps hnp) (Nat.cast_nonneg _)
    | none =>
      cases hdict : collectLogprobs (fun s => s.dictLogprob) segments with
      | some lps =>
        rw [computeConfidence_dict segments lps hattr hdict]
        have hnp : ∀ x ∈ lps, x ≤ 0 :=
          collectLogprobs_nonpos _ segments lps hdict (fun s hs x hx => (h s hs).2 x hx)
        exact div_le_one_of_le₀ (sum_map_exp_le_length lps hnp) (Nat.cast_nonneg _)
      | none =>
        rw [computeConfidence_failed segments hattr hdict]
        exact zero_le_one

/-- C6: the claim asserts the returned confidence is in [0,1] for all
possible segment log-probabilities. A positive log-probability gives
`exp(avg_logprob) > 1` and nothing caps it: with one segment of
log-probability 1, the final confidence is `exp 1 > 1`. -/
theorem C6_counterexample :
    ¬ (0 ≤ (transcribeProcess "hello" [⟨some 1, some 1⟩]).2 ∧
       (transcribeProcess "hello" [⟨some 1, some 1⟩]).2 ≤ 1) := by
  have hc : computeConfidence [⟨some 1, some 1⟩] = Real.exp 1 := by
    rw [computeConfidence_attr [⟨some 1, some 1⟩] [1] (by simp) (by simp [collectLogprobs])]
    simp
  have hH : isHallucination "hello" = false := by decide
  have hres : (transcribeProcess "hello" [⟨some 1, some 1⟩]).2 = Real.exp 1 := by
    rw [transcribeProcess_unmatched_eq _ _ hH, hc,
      if_neg (fun hand => Real.exp_ne_zero 1 hand.1)]
  intro hcl
  have hlt : 1 < Real.exp 1 := Real.one_lt_exp_iff.mpr one_pos
  rw [hres] at hcl
  linarith [hcl.2]

/-- C6 (amended): whenever every readable segment log-probability is at
most 0 — as log-probabilities are — the returned confidence lies in the
closed interval [0, 1]; without that restriction the bound fails
(see the counterexample). -/
theorem C6_confidence_unit_interval (text : String) (segs : List Segment)
    (h : ∀ s ∈ segs, (∀ x, s.attrLogprob = some x → x ≤ 0) ∧
                     (∀ x, s.dictLogprob = some x → x ≤ 0)) :
    0 ≤ (transcribeProcess text segs).2 ∧ (transcribeProcess text segs).2 ≤ 1 := by
  have h0 := computeConfidence_nonneg segs
  have h1 := computeConfidence_le_one segs h
  by_cases hH : isHallucination text = true
  · rw [transcribeProcess_matched _ _ hH]
    norm_num
  · rw [transcribeProcess_unmatched_eq _ _ (isHallucination_false_of_not _ hH)]
    split
    · norm_num
    · exact ⟨h0, h1⟩

/-- Witness for C6 at a concrete transcript and segment list. -/
theorem C6_confidence_unit_interval_witness :
    0 ≤ (transcribeProcess "water" [⟨some (-1), some (-1)⟩]).2 ∧
    (transcribeProcess "water" [⟨some (-1), some (-1)⟩]).2 ≤ 1 := by
  apply C6_confidence_unit_interval
  intro s hs
  simp only [List.mem_singleton] at hs
  subst hs
  refine ⟨?_, ?_⟩ <;> (intro x hx; simp only [Option.some_inj] at hx; subst hx) <;> norm_num

/-- C7: with a missing or empty partial fragment, the completion handler
returns the empty token list and the external model call is never made
(second component `false`). -/
theorem C7_empty_partial_short_circuits (sentence : String)
    (outcome : LLMOutcome TokenList) :
    predict_word_completion sentence none outcome = ([], false) ∧
    predict_word_completion sentence (some "") outcome = ([], false) :=
  ⟨rfl, rfl⟩

/-- C8: whatever the prior state of the temporary path and whether the
speech-to-text call succeeds or raises, the temporary audio file does not
exist after `transcribe_audio` returns. -/
theorem C8_temp_file_removed (fs : Bool) (outcome : APIOutcome) :
    (transcribe_audio fs outcome).2 = false := by
  cases outcome <;> rfl

/-- C9: the fixing wrapper performs at most one corrective repair
round-trip on a reply before accepting or rejecting it, and performs none
when the raw reply already parses. -/
theorem C9_at_most_one_repair (parse : String → Option TokenList)
    (fixCall : String → String) (raw : String) :
    (fixingParse parse fixCall raw).2 ≤ 1 := by
  unfold fixingParse
  cases parse raw with
  | some r => exact Nat.zero_le 1
  | none =>
    cases parse (fixCall raw) with
    | some r => exact le_refl 1
    | none => exact le_refl 1

/-- C10: a transcript whose trimmed-lowercased form is exactly "." escapes
the denylist — although "." is a denylist entry — because the punctuation
strip empties the membership key first; its text is returned unmodified
with a non-zero confidence. -/
theorem C10_dot_transcript_unfiltered (text : String) (segs : List Segment)
    (h : pyLower (pyStrip text) = ".") :
    "." ∈ HALLUCINATIONS ∧
    (transcribeProcess text segs).1 = text ∧
    (transcribeProcess text segs).2 ≠ 0 := by
  have htne : text ≠ "" := by
    intro he
    subst he
    simp [pyStrip, pyLower] at h
  have hH : isHallucination text = false := by
    simp only [isHallucination, h]
    decide
  rw [transcribeProcess_unmatched_eq _ _ hH]
  refine ⟨by decide, ?_⟩
  by_cases hc0 : computeConfidence segs = 0
  · rw [if_pos ⟨hc0, htne⟩]
    exact ⟨rfl, one_ne_zero⟩
  · rw [if_neg (fun hand => hc0 hand.1)]
    exact ⟨rfl, hc0⟩

/-- Witness for C10 at the concrete transcript " . ". -/
theorem C10_dot_transcript_unfiltered_witness :
    "." ∈ HALLUCINATIONS ∧
    (transcribeProcess " . " []).1 = " . " ∧
    (transcribeProcess " . " []).2 ≠ 0 :=
  C10_dot_transcript_unfiltered " . " [] (by decide)
